import Mathlib

/-!
# Verification of the libmobi DRM subsystem (src/src/encryption.c)

A shallow embedding of the PC1 (Pukall Cipher 1) cipher, the PID
validator, the DRM record table parser and the key recovery engine from
`src/src/encryption.c`, together with theorems settling the specification
claims about them.

Machine integers are modelled as `Nat` with explicit reductions:
`% 65536` wherever the C code stores into a `uint16_t`, `% 256` wherever
an `unsigned char` is read, `% 4294967296` wherever `uint32_t` arithmetic
can wrap.  Byte buffers are `List Nat`; a C string or buffer pointer that
may be `NULL` is an `Option`.
-/

/-- Return codes of the MOBI library (subset used by encryption.c). -/
inductive MOBI_RET where
  | MOBI_SUCCESS
  | MOBI_INIT_FAILED
  | MOBI_DATA_CORRUPT
  | MOBI_MALLOC_FAILED
  | MOBI_DRM_PIDINV
  | MOBI_DRM_KEYNOTFOUND
  deriving DecidableEq, Repr

open MOBI_RET

/-- `KEYVEC1`: the 16-byte constant key vector used by v2 key recovery. -/
def KEYVEC1 : List Nat :=
  [0x72, 0x38, 0x33, 0xb0, 0xb4, 0xf2, 0xe3, 0xca,
   0xdf, 0x09, 0x01, 0xd6, 0xe2, 0xe0, 0x3f, 0x96]

/-- `KEYVEC1_V1`: the 16 ASCII bytes "QDCVEPMU675RUBSZ" used by v1 key recovery. -/
def KEYVEC1_V1 : List Nat :=
  [81, 68, 67, 86, 69, 80, 77, 85, 54, 55, 53, 82, 85, 66, 83, 90]

/-- `MOBI_NOTSET` sentinel for absent u32 header fields. -/
def MOBI_NOTSET : Nat := 0xffffffff

/-- State of the PK1 cipher: `typedef struct { uint16_t si, x1a2, x1a0[8]; } PK1;`.
`x1a0` is the 8-entry `uint16_t` array. -/
structure PK1 where
  si : Nat
  x1a2 : Nat
  x1a0 : List Nat
  deriving DecidableEq, Repr

/-- The zero-initialized PK1 state (`calloc(1, sizeof(PK1))`). -/
def PK1.init : PK1 := { si := 0, x1a2 := 0, x1a0 := List.replicate 8 0 }

/-- `pk1_code` from encryption.c, written in SSA form: each mutation of a C
local gets a fresh name, `% 65536` models `uint16_t` wraparound, and the
two `pk1_swap` macro calls become renamings. Returns the updated state and
the `uint16_t` result `ax ^ dx`. -/
def pk1_code (pk1 : PK1) (i : Nat) : PK1 × Nat :=
  let dx0 := (pk1.x1a2 + i) % 65536          -- uint16_t dx = pk1->x1a2 + i;
  let ax0 := pk1.x1a0.getD i 0               -- uint16_t ax = pk1->x1a0[i];
  let cx0 := 0x015a                          -- uint16_t cx = 0x015a;
  let bx := 0x4e35                           -- uint16_t bx = 0x4e35;
  let ax1 := pk1.si                          -- pk1_swap(ax, pk1->si)
  let si1 := ax0
  let ax2 := dx0                             -- pk1_swap(ax, dx)
  let dx1 := ax1
  let ax3 := if ax2 ≠ 0 then ax2 * bx % 65536 else ax2   -- if (ax) ax *= bx;
  let ax4 := cx0                             -- pk1_swap(ax, cx)
  let cx1 := ax3
  let ax5 := if ax4 ≠ 0 then ax4 * si1 % 65536 else ax4  -- if (ax) { ax *= si;
  let cx2 := if ax4 ≠ 0 then (cx1 + ax5) % 65536 else cx1 --           cx += ax; }
  let ax6 := si1                             -- pk1_swap(ax, pk1->si)
  let si2 := ax5
  let ax7 := ax6 * bx % 65536                -- ax *= bx;
  let dx2 := (dx1 + cx2) % 65536             -- dx += cx;
  let ax8 := (ax7 + 1) % 65536               -- ax += 1;
  ({ si := si2, x1a2 := dx2, x1a0 := pk1.x1a0.set i ax8 }, ax8 ^^^ dx2)

/-- One iteration of the loop in `pk1_assemble` (index `i` in 1..7):
`pk1->x1a0[i] = pk1->x1a0[i-1] ^ ((key[i*2] * 256) + key[i*2+1]);
 inter ^= pk1_code(pk1, i);`.  Key bytes are read `% 256` (`unsigned char`). -/
def pk1_assembleStep (key : List Nat) (acc : PK1 × Nat) (i : Nat) : PK1 × Nat :=
  let v := acc.1.x1a0.getD (i - 1) 0 ^^^
      ((key.getD (2 * i) 0 % 256) * 256 + key.getD (2 * i + 1) 0 % 256)
  let r := pk1_code { acc.1 with x1a0 := acc.1.x1a0.set i v } i
  (r.1, acc.2 ^^^ r.2)

/-- `pk1_assemble` from encryption.c: seeds `x1a0[0]` from the first two key
bytes, then runs `pk1_code` for i = 0..7, XOR-folding the results. -/
def pk1_assemble (pk1 : PK1) (key : List Nat) : PK1 × Nat :=
  let st0 := { pk1 with
    x1a0 := pk1.x1a0.set 0 ((key.getD 0 0 % 256) * 256 + key.getD 1 0 % 256) }
  let r0 := pk1_code st0 0
  List.foldl (pk1_assembleStep key) (r0.1, r0.2) [1, 2, 3, 4, 5, 6, 7]

/-- The per-byte output mask of the cipher: `cfc ^ cfd` where
`cfc = inter >> 8` and `cfd = inter & 0xff`. -/
def pk1_mask (inter : Nat) : Nat := inter / 256 ^^^ inter % 256

/-- Value-level model of the loop of `mobi_pk1_decrypt`: state `pk1` and the
working key copy are threaded; each ciphertext byte is unmasked to the
plaintext byte `c`, the working key is XOR-folded with `c`, and `c` is
emitted. -/
def pk1_decryptBytes (pk1 : PK1) (key : List Nat) : List Nat → List Nat
  | [] => []
  | cin :: rest =>
    let r := pk1_assemble pk1 key
    let c := cin % 256 ^^^ pk1_mask r.2
    c :: pk1_decryptBytes r.1 (key.map fun kb => kb ^^^ c) rest

/-- Value-level model of the loop of `mobi_pk1_encrypt`: each plaintext byte
`c` first XOR-folds the working key, then is masked and emitted. -/
def pk1_encryptBytes (pk1 : PK1) (key : List Nat) : List Nat → List Nat
  | [] => []
  | cin :: rest =>
    let r := pk1_assemble pk1 key
    let c := cin % 256
    (c ^^^ pk1_mask r.2) ::
      pk1_encryptBytes r.1 (key.map fun kb => kb ^^^ c) rest

/-- `mobi_pk1_decrypt` (value level): zero-initialized PK1 state, a local
16-byte copy of the key (`memcpy(key_copy, key, KEYSIZE)`), output is the
decrypted byte list.  The NULL-buffer guard of the C function is modelled
separately in the buffer-level version below. -/
def mobi_pk1_decrypt (inb key : List Nat) : List Nat :=
  pk1_decryptBytes PK1.init (key.take 16) inb

/-- `mobi_pk1_encrypt` (value level): zero-initialized PK1 state, a local
16-byte copy of the key, output is the encrypted byte list. -/
def mobi_pk1_encrypt (inb key : List Nat) : List Nat :=
  pk1_encryptBytes PK1.init (key.take 16) inb

/-! ## Data model: headers, records and the book handle -/

/-- `MOBIPdbRecord` (Record 0): only the byte contents are relevant; its
`size` field is the length of the data. -/
structure MOBIPdbRecord where
  data : List Nat
  deriving DecidableEq, Repr

/-- The fields of the PalmDOC record header (`m->rh`) used by encryption.c. -/
structure MOBIRecord0Header where
  encryption_type : Nat
  deriving DecidableEq, Repr

/-- The fields of the PalmDOC header (`m->ph`) used by encryption.c:
the `type` and `creator` four-character strings. -/
structure MOBIPalmdocHeader where
  type : String
  creator : String
  deriving DecidableEq, Repr

/-- The fields of the MOBI header (`m->mh`) used by encryption.c.  In the C
struct these are pointers to `uint32_t`; `version` may be a NULL pointer
(hence `Option`), the others are modelled as plain values. -/
structure MOBIMobiHeader where
  version : Option Nat
  header_length : Nat
  drm_offset : Nat
  drm_count : Nat
  drm_size : Nat
  deriving DecidableEq, Repr

/-- The book handle `MOBIData`: optional headers, Record 0 and the optional
stored DRM key (a NULL pointer when no key is set).  The C field `rec` is
named `rec0` here because `rec` is reserved for the recursor. -/
structure MOBIData where
  rh : Option MOBIRecord0Header
  ph : Option MOBIPalmdocHeader
  mh : Option MOBIMobiHeader
  rec0 : MOBIPdbRecord
  drm_key : Option (List Nat)
  deriving DecidableEq, Repr

/-- Modelled from the spec: the buffer reader (`buffer_get8` of the missing
util.c) returns one `unsigned char` at the cursor position. Reads beyond the
end of the buffer yield 0. -/
def readByte (data : List Nat) (pos : Nat) : Nat := data.getD pos 0 % 256

/-- Modelled from the spec: the buffer reader (`buffer_get32` of the missing
util.c) returns a big-endian `uint32_t` at the cursor position. -/
def readU32BE (data : List Nat) (pos : Nat) : Nat :=
  readByte data pos * 16777216 + readByte data (pos + 1) * 65536 +
    readByte data (pos + 2) * 256 + readByte data (pos + 3)

/-- A parsed DRM record (struct `MOBIDrm`): big-endian `verification`,
`size`, `type`, one checksum byte, and the 32-byte cookie the descriptor
points at. -/
structure MOBIDrm where
  verification : Nat
  size : Nat
  type : Nat
  checksum : Nat
  cookie : List Nat
  deriving DecidableEq, Repr

/-- The loop of `mobi_drm_parse`: the buffer cursor starts at `pos`; each
entry reads three big-endian u32s, one checksum byte, skips 3 bytes
(`buffer_seek(buf, 3)`) and takes a reference to the next 32 bytes
(`buffer_getpointer(buf, COOKIESIZE)`), advancing the cursor by 48. -/
def mobi_drm_parseLoop (data : List Nat) (pos : Nat) : Nat → List MOBIDrm
  | 0 => []
  | n + 1 =>
    { verification := readU32BE data pos
      size := readU32BE data (pos + 4)
      type := readU32BE data (pos + 8)
      checksum := readByte data (pos + 12)
      cookie := (data.drop (pos + 16)).take 32 } ::
    mobi_drm_parseLoop data (pos + 48) n

/-- `mobi_drm_parse` from encryption.c.  The guards mirror the C code:
missing MOBI header, the `MOBI_NOTSET` offset sentinel, a zero count, and
the bounds check `offset + size > rec->size`.  `offset` and `size` are
`uint32_t`, so their sum is computed modulo 2^32 before the comparison.
Buffer reads (util.c is not in src/) are modelled from the spec as
big-endian reads at the cursor, with out-of-range reads yielding 0. -/
def mobi_drm_parse (m : MOBIData) : List MOBIDrm :=
  match m.mh with
  | none => []
  | some mh =>
    if mh.drm_offset = MOBI_NOTSET ∨ mh.drm_count = 0 then []
    else if (mh.drm_offset + mh.drm_size) % 4294967296 > m.rec0.data.length then []
    else mobi_drm_parseLoop m.rec0.data mh.drm_offset mh.drm_count

/-- `mobi_drm_keychecksum`: the byte sum of the 16 key bytes, truncated to
`uint8_t` by the final cast. -/
def mobi_drm_keychecksum (key : List Nat) : Nat :=
  ((List.range 16).foldl (fun sum i => sum + key.getD i 0 % 256) 0) % 256

/-- `mobi_drm_verify`: assemble big-endian u32 `verification` from cookie
bytes 0..3 and `flags` from bytes 4..7; the cookie is accepted iff
`verification == drm_verification && (flags & 0x1f)`. -/
def mobi_drm_verify (drm_verification : Nat) (cookie : List Nat) : Bool :=
  let verification := (cookie.getD 0 0 % 256) * 16777216 +
    (cookie.getD 1 0 % 256) * 65536 + (cookie.getD 2 0 % 256) * 256 +
    cookie.getD 3 0 % 256
  let flags := (cookie.getD 4 0 % 256) * 16777216 +
    (cookie.getD 5 0 % 256) * 65536 + (cookie.getD 6 0 % 256) * 256 +
    cookie.getD 7 0 % 256
  verification = drm_verification ∧ Nat.land flags 0x1f ≠ 0

/-- The zero-padded 16-byte block holding the first 8 PID bytes:
`unsigned char pid_nocrc[KEYSIZE] = "\0"; memcpy(pid_nocrc, pid, PIDSIZE - 2);` -/
def pid_nocrc (pid : List Nat) : List Nat :=
  (pid.take 8 ++ List.replicate 16 0).take 16

/-- The cookie loop of `mobi_drm_getkey_v2`: try each descriptor in table
order; a descriptor whose checksum equals the temp-key checksum is decrypted
with `tempkey`, else one whose checksum equals the KEYVEC1 checksum is
decrypted with `KEYVEC1`; on a verifying cookie the key is bytes 8..23 of
the plaintext.  On failure the loop returns `MOBI_DRM_KEYNOTFOUND` and the
key buffer is left unwritten (modelled as `[]`). -/
def mobi_drm_getkey_v2Loop (tempkey : List Nat) (tck kck : Nat) :
    List MOBIDrm → MOBI_RET × List Nat
  | [] => (MOBI_DRM_KEYNOTFOUND, [])
  | d :: rest =>
    if d.checksum = tck then
      let cookie := mobi_pk1_decrypt d.cookie tempkey
      if mobi_drm_verify d.verification cookie then
        (MOBI_SUCCESS, (cookie.drop 8).take 16)
      else mobi_drm_getkey_v2Loop tempkey tck kck rest
    else if d.checksum = kck then
      let cookie := mobi_pk1_decrypt d.cookie KEYVEC1
      if mobi_drm_verify d.verification cookie then
        (MOBI_SUCCESS, (cookie.drop 8).take 16)
      else mobi_drm_getkey_v2Loop tempkey tck kck rest
    else mobi_drm_getkey_v2Loop tempkey tck kck rest

/-- `mobi_drm_getkey_v2` from encryption.c: build the temp key by PC1
encrypting the zero-padded PID payload under `KEYVEC1`, compute the two
checksums, parse the DRM table and run the cookie loop. -/
def mobi_drm_getkey_v2 (pid : List Nat) (m : MOBIData) : MOBI_RET × List Nat :=
  let tempkey := mobi_pk1_encrypt (pid_nocrc pid) KEYVEC1
  mobi_drm_getkey_v2Loop tempkey (mobi_drm_keychecksum tempkey)
    (mobi_drm_keychecksum KEYVEC1) (mobi_drm_parse m)

/-- `mobi_drm_getkey_v1` from encryption.c: pick the source offset (14 for
TEXt/REAd books, 144 when the MOBI header or its version is absent or the
version is the `MOBI_NOTSET` sentinel, else `header_length + 16`), read 16
bytes there and PC1-decrypt them under `KEYVEC1_V1`.  `buffer_getraw` of
the missing util.c is modelled from the spec as reading the 16 bytes at the
cursor. -/
def mobi_drm_getkey_v1 (m : MOBIData) : MOBI_RET × List Nat :=
  match m.ph with
  | none => (MOBI_DATA_CORRUPT, [])
  | some ph =>
    let pos :=
      if ph.type = "TEXt" ∧ ph.creator = "REAd" then 14
      else match m.mh with
        | none => 144
        | some mh =>
          match mh.version with
          | none => 144
          | some v => if v = MOBI_NOTSET then 144 else mh.header_length + 16
    let key_enc := (m.rec0.data.drop pos).take 16
    (MOBI_SUCCESS, mobi_pk1_decrypt key_enc KEYVEC1_V1)

/-- `mobi_drm_getkey` from encryption.c: dispatch on `encryption_type`;
type 1 uses v1 recovery, anything else requires a PID whose first byte is
not NUL and uses v2 recovery. -/
def mobi_drm_getkey (pid : List Nat) (m : MOBIData) : MOBI_RET × List Nat :=
  match m.rh with
  | some rh =>
    if rh.encryption_type = 1 then mobi_drm_getkey_v1 m
    else if pid.getD 0 0 = 0 then (MOBI_INIT_FAILED, [])
    else mobi_drm_getkey_v2 pid m
  | none =>
    if pid.getD 0 0 = 0 then (MOBI_INIT_FAILED, [])
    else mobi_drm_getkey_v2 pid m

/-! ## PID validation -/

/-- The checksum alphabet `"ABCDEFGHIJKLMNPQRSTUVWXYZ123456789"` (ASCII
codes; 25 letters, no O, plus the digits 1..9 — 34 characters). -/
def PID_ALPHABET : List Nat :=
  [65, 66, 67, 68, 69, 70, 71, 72, 73, 74, 75, 76, 77, 78, 80, 81, 82, 83,
   84, 85, 86, 87, 88, 89, 90, 49, 50, 51, 52, 53, 54, 55, 56, 57]

/-- Modelled from the spec: one bit step of the CRC-32 provider `m_crc32`
(util.c, not in src/): shift right, XOR the reflected polynomial 0xEDB88320
when the low bit was set. -/
def crc32_bitstep (crc : Nat) : Nat :=
  if crc % 2 = 1 then crc / 2 ^^^ 0xedb88320 else crc / 2

/-- Modelled from the spec: one byte step of `m_crc32`: XOR the byte into
the low bits, then eight bit steps. -/
def crc32_bytestep (crc b : Nat) : Nat :=
  crc32_bitstep (crc32_bitstep (crc32_bitstep (crc32_bitstep (crc32_bitstep
    (crc32_bitstep (crc32_bitstep (crc32_bitstep (crc ^^^ b % 256))))))))

/-- Modelled from the spec: `m_crc32` (the CRC-32 provider, util.c, not in
src/) — "standard reflected CRC-32; the call `crc32(seed, bytes)` here
returns the running value". -/
def m_crc32 (seed : Nat) (buf : List Nat) : Nat := buf.foldl crc32_bytestep seed

/-- `mobi_drm_pidverify` from encryption.c: `map_length = sizeof(map) - 1`
is the length of `PID_ALPHABET`; `crc = ~m_crc32(0xffffffff, pid, 8)` (the
complement of a `uint32_t` is XOR with 0xffffffff), folded by
`crc ^= crc >> 16`; the two checksum characters are compared with
`pid[8..10]`. -/
def mobi_drm_pidverify (pid : List Nat) : MOBI_RET :=
  let map_length := PID_ALPHABET.length
  let crc0 := 0xffffffff ^^^ m_crc32 0xffffffff (pid.take 8)
  let crc := crc0 ^^^ crc0 / 65536
  let b0 := crc % 256
  let pos0 := b0 / map_length ^^^ b0 % map_length
  let b1 := crc / 256 % 256
  let pos1 := b1 / map_length ^^^ b1 % map_length
  if [PID_ALPHABET.getD (pos0 % map_length) 0,
      PID_ALPHABET.getD (pos1 % map_length) 0] =
     [pid.getD 8 0 % 256, pid.getD 9 0 % 256]
  then MOBI_SUCCESS else MOBI_DRM_PIDINV

/-- The PID validation algorithm exactly as claim C2 states it, with an
alphabet length of 33: each checksum character is
`PID_ALPHABET[((b / 33) XOR (b % 33)) mod 33]`. -/
def claimC2_pidverify (pid : List Nat) : MOBI_RET :=
  let crc0 := 0xffffffff ^^^ m_crc32 0xffffffff (pid.take 8)
  let crc := crc0 ^^^ crc0 / 65536
  let b0 := crc % 256
  let b1 := crc / 256 % 256
  if [PID_ALPHABET.getD ((b0 / 33 ^^^ b0 % 33) % 33) 0,
      PID_ALPHABET.getD ((b1 / 33 ^^^ b1 % 33) % 33) 0] =
     [pid.getD 8 0 % 256, pid.getD 9 0 % 256]
  then MOBI_SUCCESS else MOBI_DRM_PIDINV

/-- The PID validation algorithm as claim C2 amended: identical, but the
alphabet length is 34 (the map string has 34 characters), so each checksum
character is `PID_ALPHABET[((b / 34) XOR (b % 34)) mod 34]`. -/
def claimC2_pidverify_amended (pid : List Nat) : MOBI_RET :=
  let crc0 := 0xffffffff ^^^ m_crc32 0xffffffff (pid.take 8)
  let crc := crc0 ^^^ crc0 / 65536
  let b0 := crc % 256
  let b1 := crc / 256 % 256
  if [PID_ALPHABET.getD ((b0 / 34 ^^^ b0 % 34) % 34) 0,
      PID_ALPHABET.getD ((b1 / 34 ^^^ b1 % 34) % 34) 0] =
     [pid.getD 8 0 % 256, pid.getD 9 0 % 256]
  then MOBI_SUCCESS else MOBI_DRM_PIDINV

/-! ## The public set-key / decrypt API -/

/-- `strlen` on a modelled C string: the number of bytes before the first
NUL byte. -/
def strlenBytes (s : List Nat) : Nat := (s.takeWhile (fun b => b % 256 ≠ 0)).length

/-- The tail of `mobi_drm_setkey_internal` after PID validation: run
`mobi_drm_getkey`; on failure return the error with the handle unchanged,
on success store the recovered 16-byte key in the handle. -/
def mobi_drm_setkey_finish (m : MOBIData) (drm_pid : List Nat) : MOBI_RET × MOBIData :=
  let r := mobi_drm_getkey drm_pid m
  if r.1 ≠ MOBI_SUCCESS then (r.1, m)
  else (MOBI_SUCCESS, { m with drm_key := some r.2 })

/-- `mobi_drm_setkey_internal` from encryption.c: no record header is
`MOBI_INIT_FAILED`; `encryption_type == 0` succeeds with no action; for
`encryption_type > 1` a PID is required (`MOBI_INIT_FAILED` when NULL),
must have `strlen == 10` and a valid checksum (`MOBI_DRM_PIDINV`
otherwise); then the key is recovered and stored.  The `malloc` failure
path is not modelled. -/
def mobi_drm_setkey_internal (m : MOBIData) (pid : Option (List Nat)) :
    MOBI_RET × MOBIData :=
  match m.rh with
  | none => (MOBI_INIT_FAILED, m)
  | some rh =>
    if rh.encryption_type = 0 then (MOBI_SUCCESS, m)
    else if rh.encryption_type > 1 then
      match pid with
      | none => (MOBI_INIT_FAILED, m)
      | some p =>
        if strlenBytes p ≠ 10 then (MOBI_DRM_PIDINV, m)
        else
          let drm_pid := (p.take 10).map (fun b => b % 256)
          let ret := mobi_drm_pidverify drm_pid
          if ret ≠ MOBI_SUCCESS then (ret, m)
          else mobi_drm_setkey_finish m drm_pid
    else mobi_drm_setkey_finish m (List.replicate 10 0)

/-- `mobi_drm_delkey_internal` from encryption.c: drop the stored key. -/
def mobi_drm_delkey_internal (m : MOBIData) : MOBI_RET × MOBIData :=
  (MOBI_SUCCESS, { m with drm_key := none })

/-! ## Buffer-level model of the PC1 calls

For the frame claims the cipher calls are modelled at the level of the
memory they can reach: the caller's key buffer, the local working copy and
the output buffer are all part of the threaded state, and each C store
updates exactly one component. -/

/-- The buffers reachable by a PC1 cipher call. -/
structure PK1Mem where
  pk1 : PK1
  keybuf : List Nat
  key_copy : List Nat
  outbuf : List Nat
  deriving DecidableEq, Repr

/-- Buffer-level loop of `mobi_pk1_decrypt`: per input byte the loop updates
the PK1 state (`pk1_assemble`), the working copy (`key_copy[i] ^= c`) and
one output cell (`*out++ = c`); no statement writes the caller's key
buffer. -/
def pk1_decryptLoopMem (st : PK1Mem) (opos : Nat) : List Nat → PK1Mem
  | [] => st
  | cin :: rest =>
    let r := pk1_assemble st.pk1 st.key_copy
    let c := cin % 256 ^^^ pk1_mask r.2
    pk1_decryptLoopMem
      { pk1 := r.1
        keybuf := st.keybuf
        key_copy := st.key_copy.map fun kb => kb ^^^ c
        outbuf := st.outbuf.set opos c } (opos + 1) rest

/-- Buffer-level loop of `mobi_pk1_encrypt`: the working copy is folded with
the plaintext byte before the mask is applied. -/
def pk1_encryptLoopMem (st : PK1Mem) (opos : Nat) : List Nat → PK1Mem
  | [] => st
  | cin :: rest =>
    let r := pk1_assemble st.pk1 st.key_copy
    let c := cin % 256
    pk1_encryptLoopMem
      { pk1 := r.1
        keybuf := st.keybuf
        key_copy := st.key_copy.map fun kb => kb ^^^ c
        outbuf := st.outbuf.set opos (c ^^^ pk1_mask r.2) } (opos + 1) rest

/-- `mobi_pk1_decrypt`, buffer level: `memcpy(key_copy, key, KEYSIZE)`, a
zero-initialized PK1 state, then the loop over the `length` input bytes.
Lists model non-NULL buffers, so the NULL guard always passes and the call
returns `MOBI_SUCCESS`. -/
def mobi_pk1_decrypt_mem (keybuf inb outbuf : List Nat) (length : Nat) :
    MOBI_RET × PK1Mem :=
  (MOBI_SUCCESS, pk1_decryptLoopMem
    { pk1 := PK1.init, keybuf := keybuf, key_copy := keybuf.take 16,
      outbuf := outbuf } 0 (inb.take length))

/-- `mobi_pk1_encrypt`, buffer level. -/
def mobi_pk1_encrypt_mem (keybuf inb outbuf : List Nat) (length : Nat) :
    MOBI_RET × PK1Mem :=
  (MOBI_SUCCESS, pk1_encryptLoopMem
    { pk1 := PK1.init, keybuf := keybuf, key_copy := keybuf.take 16,
      outbuf := outbuf } 0 (inb.take length))

/-- `mobi_decrypt` from encryption.c: `MOBI_INIT_FAILED` when no key is
stored in the handle, else PC1 decryption with the stored key. -/
def mobi_decrypt (m : MOBIData) (inb outbuf : List Nat) (length : Nat) :
    MOBI_RET × List Nat :=
  match m.drm_key with
  | none => (MOBI_INIT_FAILED, outbuf)
  | some k =>
    let r := mobi_pk1_decrypt_mem k inb outbuf length
    (r.1, r.2.outbuf)


/-! ## Claim-side helper definitions and concrete example books -/

/-- The v2 temp key as the spec describes it: PC1-encrypt the zero-padded
PID payload under `KEYVEC1`. -/
def v2TempKey (pid : List Nat) : List Nat := mobi_pk1_encrypt (pid_nocrc pid) KEYVEC1

/-- The key a v2 cookie descriptor is decrypted with, per the claim: the
temp key when the descriptor checksum matches the temp-key checksum, else
`KEYVEC1` when it matches the `KEYVEC1` checksum, else none (descriptor
skipped). -/
def v2DecryptKey (pid : List Nat) (d : MOBIDrm) : Option (List Nat) :=
  if d.checksum = mobi_drm_keychecksum (v2TempKey pid) then some (v2TempKey pid)
  else if d.checksum = mobi_drm_keychecksum KEYVEC1 then some KEYVEC1
  else none

/-- Overwrite the cells of `outb` starting at `pos` with `vals` (the net
effect of a `*out++ = c` loop). -/
def listOverwrite (outb : List Nat) (pos : Nat) : List Nat → List Nat
  | [] => outb
  | v :: rest => listOverwrite (outb.set pos v) (pos + 1) rest

/-- A book handle with no headers, no Record 0 bytes and no key. -/
def emptyBook : MOBIData :=
  { rh := none, ph := none, mh := none, rec0 := ⟨[]⟩, drm_key := none }

/-- A type-2-encrypted book that already holds a stored key (for claim C3:
a failing `set_key` call on it does not clear the stored key). -/
def drmBookC3 : MOBIData :=
  { rh := some ⟨2⟩, ph := none, mh := none, rec0 := ⟨[]⟩,
    drm_key := some KEYVEC1 }

/-- A book whose DRM header fields overflow the 32-bit sum
`drm_offset + drm_size` (0xfffffffe + 0x10 wraps to 0xe), so the bounds
guard of `mobi_drm_parse` passes although the mathematical sum exceeds the
Record 0 size (for claim C6). -/
def drmBookC6 : MOBIData :=
  { rh := none, ph := none,
    mh := some { version := none, header_length := 0,
                 drm_offset := 0xfffffffe, drm_count := 1, drm_size := 0x10 },
    rec0 := ⟨List.replicate 100 7⟩, drm_key := none }

/-! ## Bounds on the cipher primitives -/

theorem pk1_code_snd_lt (pk1 : PK1) (i : Nat) : (pk1_code pk1 i).2 < 65536 := by
  have h2 : (65536 : Nat) = 2 ^ 16 := by norm_num
  simp only [pk1_code]
  exact h2 ▸ Nat.xor_lt_two_pow (h2 ▸ Nat.mod_lt _ (by norm_num))
    (h2 ▸ Nat.mod_lt _ (by norm_num))

theorem pk1_assembleStep_snd_lt (key : List Nat) (acc : PK1 × Nat) (i : Nat)
    (h : acc.2 < 65536) : (pk1_assembleStep key acc i).2 < 65536 := by
  have h2 : (65536 : Nat) = 2 ^ 16 := by norm_num
  simp only [pk1_assembleStep]
  exact h2 ▸ Nat.xor_lt_two_pow (h2 ▸ h) (h2 ▸ pk1_code_snd_lt _ i)

theorem pk1_assemble_foldl_snd_lt (key : List Nat) :
    ∀ (l : List Nat) (acc : PK1 × Nat), acc.2 < 65536 →
      (List.foldl (pk1_assembleStep key) acc l).2 < 65536 := by
  intro l
  induction l with
  | nil => intro acc h; exact h
  | cons a t ih =>
    intro acc h
    exact ih _ (pk1_assembleStep_snd_lt key acc a h)

theorem pk1_assemble_snd_lt (pk1 : PK1) (key : List Nat) :
    (pk1_assemble pk1 key).2 < 65536 := by
  simp only [pk1_assemble]
  exact pk1_assemble_foldl_snd_lt key _ _ (pk1_code_snd_lt _ 0)

theorem pk1_mask_lt (inter : Nat) (h : inter < 65536) : pk1_mask inter < 256 := by
  have h2 : (256 : Nat) = 2 ^ 8 := by norm_num
  have hdiv : inter / 256 < 256 := by omega
  exact h2 ▸ Nat.xor_lt_two_pow (h2 ▸ hdiv) (h2 ▸ Nat.mod_lt _ (by norm_num))

/-! ## The PC1 inverse law -/

theorem pk1_roundtrip (p : List Nat) : ∀ (pk1 : PK1) (key : List Nat),
    pk1_decryptBytes pk1 key (pk1_encryptBytes pk1 key p) =
      p.map (fun b => b % 256) := by
  induction p with
  | nil => intro pk1 key; rfl
  | cons cin rest ih =>
    intro pk1 key
    simp only [pk1_encryptBytes, pk1_decryptBytes, List.map]
    have hmask : pk1_mask (pk1_assemble pk1 key).2 < 256 :=
      pk1_mask_lt _ (pk1_assemble_snd_lt pk1 key)
    have hc : cin % 256 < 256 := Nat.mod_lt _ (by norm_num)
    have hxor : cin % 256 ^^^ pk1_mask (pk1_assemble pk1 key).2 < 256 := by
      have h2 : (256 : Nat) = 2 ^ 8 := by norm_num
      exact h2 ▸ Nat.xor_lt_two_pow (h2 ▸ hc) (h2 ▸ hmask)
    have hcc : (cin % 256 ^^^ pk1_mask (pk1_assemble pk1 key).2) ^^^
        pk1_mask (pk1_assemble pk1 key).2 = cin % 256 := by
      rw [Nat.xor_assoc, Nat.xor_self, Nat.xor_zero]
    rw [Nat.mod_eq_of_lt hxor, hcc]
    exact congrArg (_ :: ·) (ih _ _)

/-- C1: PC1 inverse law: for every 16-byte key `k` and every byte sequence
`p`, `mobi_pk1_decrypt (mobi_pk1_encrypt p k) k = p`. -/
theorem C1_pk1_inverse_law (k p : List Nat) (hk : k.length = 16)
    (hp : ∀ b ∈ p, b < 256) :
    mobi_pk1_decrypt (mobi_pk1_encrypt p k) k = p := by
  have _ := hk
  simp only [mobi_pk1_decrypt, mobi_pk1_encrypt]
  rw [pk1_roundtrip]
  exact (List.map_congr_left fun b hb => Nat.mod_eq_of_lt (hp b hb)).trans
    (List.map_id p)

/-- Witness for C1 at a concrete key and plaintext. -/
theorem C1_pk1_inverse_law_witness :
    mobi_pk1_decrypt (mobi_pk1_encrypt [0, 1, 2, 255, 77] KEYVEC1_V1) KEYVEC1_V1 =
      [0, 1, 2, 255, 77] :=
  C1_pk1_inverse_law KEYVEC1_V1 [0, 1, 2, 255, 77] (by decide) (by decide)

/-! ## Key checksum (C5) -/

theorem keychecksum_foldl (key : List Nat) (n : Nat) :
    (List.range n).foldl (fun sum i => sum + key.getD i 0 % 256) 0 =
      ((key.take n).map (fun b => b % 256)).sum := by
  induction n with
  | zero => simp
  | succ n ih =>
    rw [List.range_succ, List.foldl_append, ih, List.take_succ]
    cases h : key[n]? <;> simp [List.getD, h]

/-- C5 counterexample: the key checksum of `KEYVEC1` is 0x36, not 0xDA as
the claim states. -/
theorem C5_counterexample :
    mobi_drm_keychecksum KEYVEC1 = 0x36 ∧ (0x36 : Nat) ≠ 0xda := by
  exact ⟨by decide, by decide⟩

/-- C5 (amended): the key checksum function is the byte sum of the 16 key
bytes reduced mod 256, and applied to `KEYVEC1` it yields 0x36. -/
theorem C5_keychecksum_amended :
    (∀ key : List Nat, mobi_drm_keychecksum key =
      ((key.take 16).map (fun b => b % 256)).sum % 256) ∧
    mobi_drm_keychecksum KEYVEC1 = 0x36 := by
  refine ⟨fun key => ?_, by decide⟩
  unfold mobi_drm_keychecksum
  rw [keychecksum_foldl]

/-! ## PID validation (C2) -/

/-- C2 counterexample: the PID `"12345678J7"` (bytes `49..56, 74, 55`) is
accepted by `mobi_drm_pidverify` (alphabet length 34), but rejected by the
claimed algorithm with alphabet length 33. -/
theorem C2_counterexample :
    mobi_drm_pidverify [49, 50, 51, 52, 53, 54, 55, 56, 74, 55] = MOBI_SUCCESS ∧
    claimC2_pidverify [49, 50, 51, 52, 53, 54, 55, 56, 74, 55] = MOBI_DRM_PIDINV := by
  set_option maxRecDepth 8000 in exact ⟨by decide, by decide⟩

/-- C2 (amended): the PID validator is exactly the claimed algorithm with
the alphabet length corrected from 33 to 34: two checksum characters
`PID_ALPHABET[((b / 34) XOR (b % 34)) mod 34]` derived from the folded
complemented CRC-32 of `pid[0..8]`, compared byte-wise with `pid[8..10]`,
failing with `MOBI_DRM_PIDINV` otherwise. -/
theorem C2_pidverify_amended (pid : List Nat) :
    mobi_drm_pidverify pid = claimC2_pidverify_amended pid := rfl

/-! ## DRM table parser (C6) -/

theorem mobi_drm_parseLoop_length (data : List Nat) :
    ∀ (n pos : Nat), (mobi_drm_parseLoop data pos n).length = n := by
  intro n
  induction n with
  | zero => intro pos; rfl
  | succ n ih => intro pos; simp [mobi_drm_parseLoop, ih]

theorem mobi_drm_parseLoop_getD (data : List Nat) :
    ∀ (n pos i : Nat), i < n →
      (mobi_drm_parseLoop data pos n).getD i ⟨0, 0, 0, 0, []⟩ =
        { verification := readU32BE data (pos + 48 * i)
          size := readU32BE data (pos + 48 * i + 4)
          type := readU32BE data (pos + 48 * i + 8)
          checksum := readByte data (pos + 48 * i + 12)
          cookie := (data.drop (pos + 48 * i + 16)).take 32 } := by
  intro n
  induction n with
  | zero => intro pos i h; omega
  | succ n ih =>
    intro pos i h
    cases i with
    | zero => simp [mobi_drm_parseLoop]
    | succ i =>
      have hrec := ih (pos + 48) i (by omega)
      have harith : pos + 48 + 48 * i = pos + 48 * (i + 1) := by ring
      simp only [mobi_drm_parseLoop, List.getD_cons_succ]
      rw [hrec, harith]

/-- C6 counterexample: with `drm_offset = 0xfffffffe`, `drm_count = 1` and
`drm_size = 0x10` on a 100-byte Record 0, the mathematical sum
`drm_offset + drm_size` exceeds the record size (so the claim requires an
empty table), yet the parser yields one entry because the `uint32_t` sum
wraps to 0xe and the bounds guard passes. -/
theorem C6_counterexample :
    0xfffffffe + 0x10 > drmBookC6.rec0.data.length ∧
    (0xfffffffe : Nat) ≠ MOBI_NOTSET ∧ (1 : Nat) ≠ 0 ∧
    mobi_drm_parse drmBookC6 ≠ [] := by
  refine ⟨by decide, by decide, by decide, by decide⟩

/-- C6 (amended): the parser yields zero entries when `drm_offset` is the
0xFFFFFFFF sentinel, or `drm_count` is 0, or the `uint32_t` sum
`(drm_offset + drm_size) mod 2^32` exceeds the Record 0 size; otherwise it
yields `drm_count` entries read at 48-byte stride from `drm_offset`, each
with big-endian u32 verification, size, type, a u8 checksum, 3 skipped
bytes and the 32-byte cookie. -/
theorem C6_drm_parse_guards (m : MOBIData) (mh : MOBIMobiHeader)
    (hmh : m.mh = some mh) :
    ((mh.drm_offset = MOBI_NOTSET ∨ mh.drm_count = 0) → mobi_drm_parse m = []) ∧
    ((mh.drm_offset + mh.drm_size) % 4294967296 > m.rec0.data.length →
      mobi_drm_parse m = []) ∧
    (mh.drm_offset ≠ MOBI_NOTSET → mh.drm_count ≠ 0 →
      (mh.drm_offset + mh.drm_size) % 4294967296 ≤ m.rec0.data.length →
      (mobi_drm_parse m).length = mh.drm_count ∧
      ∀ i, i < mh.drm_count →
        (mobi_drm_parse m).getD i ⟨0, 0, 0, 0, []⟩ =
          { verification := readU32BE m.rec0.data (mh.drm_offset + 48 * i)
            size := readU32BE m.rec0.data (mh.drm_offset + 48 * i + 4)
            type := readU32BE m.rec0.data (mh.drm_offset + 48 * i + 8)
            checksum := readByte m.rec0.data (mh.drm_offset + 48 * i + 12)
            cookie := (m.rec0.data.drop (mh.drm_offset + 48 * i + 16)).take 32 }) := by
  refine ⟨?_, ?_, ?_⟩
  · intro h
    simp only [mobi_drm_parse, hmh]
    rw [if_pos h]
  · intro h
    by_cases h0 : mh.drm_offset = MOBI_NOTSET ∨ mh.drm_count = 0
    · simp only [mobi_drm_parse, hmh]
      rw [if_pos h0]
    · simp only [mobi_drm_parse, hmh]
      rw [if_neg h0, if_pos h]
  · intro h1 h2 h3
    have hcond : ¬(mh.drm_offset = MOBI_NOTSET ∨ mh.drm_count = 0) := by tauto
    have hparse : mobi_drm_parse m =
        mobi_drm_parseLoop m.rec0.data mh.drm_offset mh.drm_count := by
      simp only [mobi_drm_parse, hmh]
      rw [if_neg hcond, if_neg (Nat.not_lt.mpr h3)]
    rw [hparse]
    exact ⟨mobi_drm_parseLoop_length _ _ _,
      fun i hi => mobi_drm_parseLoop_getD _ _ _ i hi⟩

/-- Witness for C6 at a concrete book: the sentinel offset yields an empty
table. -/
theorem C6_witness :
    mobi_drm_parse { emptyBook with
      mh := some { version := none, header_length := 0,
                   drm_offset := MOBI_NOTSET, drm_count := 3, drm_size := 0 } } = [] :=
  (C6_drm_parse_guards _ _ rfl).1 (Or.inl rfl)

/-! ## Buffer-level cipher facts (C9, C10) -/

theorem pk1_decryptLoopMem_keybuf (l : List Nat) :
    ∀ (st : PK1Mem) (opos : Nat), (pk1_decryptLoopMem st opos l).keybuf = st.keybuf := by
  induction l with
  | nil => intro st opos; rfl
  | cons c rest ih => intro st opos; rw [pk1_decryptLoopMem, ih]

theorem pk1_encryptLoopMem_keybuf (l : List Nat) :
    ∀ (st : PK1Mem) (opos : Nat), (pk1_encryptLoopMem st opos l).keybuf = st.keybuf := by
  induction l with
  | nil => intro st opos; rfl
  | cons c rest ih => intro st opos; rw [pk1_encryptLoopMem, ih]

/-- Consistency of the buffer-level and value-level decrypt models: the
loop writes exactly the value-level output bytes into the output buffer. -/
theorem pk1_decryptLoopMem_outbuf (l : List Nat) :
    ∀ (st : PK1Mem) (opos : Nat),
      (pk1_decryptLoopMem st opos l).outbuf =
        listOverwrite st.outbuf opos (pk1_decryptBytes st.pk1 st.key_copy l) := by
  induction l with
  | nil => intro st opos; rfl
  | cons c rest ih =>
    intro st opos
    rw [pk1_decryptLoopMem, pk1_decryptBytes, listOverwrite, ih]

/-- C9: key buffer framing: for every 16-byte key and every input, the
caller-supplied key buffer is byte-for-byte unchanged after a PC1 encrypt
or decrypt call (only the local working copy is mutated). -/
theorem C9_key_buffer_unchanged (keybuf inb outb : List Nat) (length : Nat)
    (hk : keybuf.length = 16) :
    ((mobi_pk1_encrypt_mem keybuf inb outb length).2).keybuf = keybuf ∧
    ((mobi_pk1_decrypt_mem keybuf inb outb length).2).keybuf = keybuf := by
  have _ := hk
  exact ⟨pk1_encryptLoopMem_keybuf _ _ _, pk1_decryptLoopMem_keybuf _ _ _⟩

/-- Witness for C9 at a concrete key, input and output buffer. -/
theorem C9_key_buffer_unchanged_witness :
    ((mobi_pk1_encrypt_mem KEYVEC1 [1, 2, 3] [9, 9, 9] 3).2).keybuf = KEYVEC1 ∧
    ((mobi_pk1_decrypt_mem KEYVEC1 [1, 2, 3] [9, 9, 9] 3).2).keybuf = KEYVEC1 :=
  C9_key_buffer_unchanged KEYVEC1 [1, 2, 3] [9, 9, 9] 3 (by decide)

/-- C10: a PC1 encrypt or decrypt call with length 0 returns `MOBI_SUCCESS`
and writes no output bytes; `mobi_decrypt` on a handle with a stored key
and a zero-length buffer succeeds and leaves the output buffer untouched. -/
theorem C10_zero_length (keybuf inb outb : List Nat) (m : MOBIData)
    (k : List Nat) (hkey : m.drm_key = some k) :
    (mobi_pk1_encrypt_mem keybuf inb outb 0).1 = MOBI_SUCCESS ∧
    ((mobi_pk1_encrypt_mem keybuf inb outb 0).2).outbuf = outb ∧
    (mobi_pk1_decrypt_mem keybuf inb outb 0).1 = MOBI_SUCCESS ∧
    ((mobi_pk1_decrypt_mem keybuf inb outb 0).2).outbuf = outb ∧
    mobi_decrypt m inb outb 0 = (MOBI_SUCCESS, outb) := by
  refine ⟨rfl, rfl, rfl, rfl, ?_⟩
  rw [mobi_decrypt, hkey]
  rfl

/-- Witness for C10 at a concrete handle with a stored key. -/
theorem C10_zero_length_witness :
    (mobi_pk1_encrypt_mem KEYVEC1 [5, 6] [7, 8] 0).1 = MOBI_SUCCESS ∧
    ((mobi_pk1_encrypt_mem KEYVEC1 [5, 6] [7, 8] 0).2).outbuf = [7, 8] ∧
    (mobi_pk1_decrypt_mem KEYVEC1 [5, 6] [7, 8] 0).1 = MOBI_SUCCESS ∧
    ((mobi_pk1_decrypt_mem KEYVEC1 [5, 6] [7, 8] 0).2).outbuf = [7, 8] ∧
    mobi_decrypt drmBookC3 [5, 6] [7, 8] 0 = (MOBI_SUCCESS, [7, 8]) :=
  C10_zero_length KEYVEC1 [5, 6] [7, 8] drmBookC3 KEYVEC1 rfl

/-! ## Error behaviour of set_key (C3) -/

theorem setkey_finish_error (m : MOBIData) (dp : List Nat)
    (h : (mobi_drm_setkey_finish m dp).1 ≠ MOBI_SUCCESS) :
    (mobi_drm_setkey_finish m dp).2 = m := by
  unfold mobi_drm_setkey_finish at h ⊢
  by_cases hr : (mobi_drm_getkey dp m).1 ≠ MOBI_SUCCESS
  · simp [hr]
  · simp [hr] at h

/-- C3 counterexample: a type-2 book that already stores a key; calling
`set_key` with a NULL PID fails with `MOBI_INIT_FAILED`, yet the handle
still holds the previously stored key, contradicting the claim that a
failed call leaves the handle with no stored key. -/
theorem C3_counterexample :
    (mobi_drm_setkey_internal drmBookC3 none).1 ≠ MOBI_SUCCESS ∧
    (mobi_drm_setkey_internal drmBookC3 none).2.drm_key ≠ none := by
  exact ⟨by decide, by decide⟩

/-- C3 (amended): if `mobi_drm_setkey_internal` returns an error, the
handle is unchanged — in particular the stored key is exactly what it was
before the call (a handle with no key still has none, and a previously
stored key is retained). -/
theorem C3_setkey_error_preserves_handle (m : MOBIData) (pid : Option (List Nat))
    (h : (mobi_drm_setkey_internal m pid).1 ≠ MOBI_SUCCESS) :
    (mobi_drm_setkey_internal m pid).2 = m := by
  revert h
  unfold mobi_drm_setkey_internal
  split
  · intro _; rfl
  · split
    · intro h; exact absurd rfl h
    · split
      · split
        · intro _; rfl
        · dsimp only
          split
          · intro _; rfl
          · split
            · intro _; rfl
            · intro h; exact setkey_finish_error _ _ h
      · intro h; exact setkey_finish_error _ _ h

/-- Witness for C3 (amended) at a concrete failing call: no record header,
so `set_key` fails and the handle is returned unchanged. -/
theorem C3_setkey_error_preserves_handle_witness :
    (mobi_drm_setkey_internal emptyBook none).2 = emptyBook :=
  C3_setkey_error_preserves_handle emptyBook none (by decide)

/-! ## V1 key recovery (C7) -/

/-- C7: v1 key-source selection: for a book with `encryption_type` 1 the
dispatcher uses v1 recovery; the 16 encrypted key bytes are read at offset
14 for TEXt/REAd books, at 144 when the MOBI header or its version is
absent or the version is the 0xFFFFFFFF sentinel, else at
`header_length + 16`; the Book Key is their PC1 decryption under
`KEYVEC1_V1` and the call always succeeds (no verification step). -/
theorem C7_v1_key_source (m : MOBIData) (ph : MOBIPalmdocHeader)
    (hph : m.ph = some ph) :
    (∀ rh pid, m.rh = some rh → rh.encryption_type = 1 →
      mobi_drm_getkey pid m = mobi_drm_getkey_v1 m) ∧
    (ph.type = "TEXt" ∧ ph.creator = "REAd" →
      mobi_drm_getkey_v1 m =
        (MOBI_SUCCESS, mobi_pk1_decrypt ((m.rec0.data.drop 14).take 16) KEYVEC1_V1)) ∧
    (¬(ph.type = "TEXt" ∧ ph.creator = "REAd") →
      (m.mh = none ∨ ∃ mh, m.mh = some mh ∧
        (mh.version = none ∨ mh.version = some MOBI_NOTSET)) →
      mobi_drm_getkey_v1 m =
        (MOBI_SUCCESS, mobi_pk1_decrypt ((m.rec0.data.drop 144).take 16) KEYVEC1_V1)) ∧
    (∀ mh v, ¬(ph.type = "TEXt" ∧ ph.creator = "REAd") →
      m.mh = some mh → mh.version = some v → v ≠ MOBI_NOTSET →
      mobi_drm_getkey_v1 m =
        (MOBI_SUCCESS,
          mobi_pk1_decrypt ((m.rec0.data.drop (mh.header_length + 16)).take 16)
            KEYVEC1_V1)) := by
  refine ⟨?_, ?_, ?_, ?_⟩
  · intro rh pid hrh henc
    simp only [mobi_drm_getkey, hrh]
    rw [if_pos henc]
  · intro hcond
    simp only [mobi_drm_getkey_v1, hph]
    rw [if_pos hcond]
  · intro hcond hver
    rcases hver with hmh | ⟨mh, hmh, hv⟩
    · simp only [mobi_drm_getkey_v1, hph, hmh]
      rw [if_neg hcond]
    · rcases hv with hv | hv
      · simp only [mobi_drm_getkey_v1, hph, hmh, hv]
        rw [if_neg hcond]
      · simp only [mobi_drm_getkey_v1, hph, hmh, hv]
        rw [if_neg hcond, if_pos trivial]
  · intro mh v hcond hmh hv hne
    simp only [mobi_drm_getkey_v1, hph, hmh, hv]
    rw [if_neg hcond, if_neg hne]

/-- Witness for C7 at a concrete TEXt/REAd book. -/
theorem C7_v1_key_source_witness :
    mobi_drm_getkey_v1 { emptyBook with ph := some ⟨"TEXt", "REAd"⟩ } =
      (MOBI_SUCCESS,
        mobi_pk1_decrypt
          ((({ emptyBook with ph := some ⟨"TEXt", "REAd"⟩ } :
              MOBIData).rec0.data.drop 14).take 16) KEYVEC1_V1) :=
  (C7_v1_key_source { emptyBook with ph := some ⟨"TEXt", "REAd"⟩ }
    ⟨"TEXt", "REAd"⟩ rfl).2.1 ⟨rfl, rfl⟩

/-! ## set_key input contract (C8) -/

theorem pidverify_not_success (pid : List Nat)
    (h : mobi_drm_pidverify pid ≠ MOBI_SUCCESS) :
    mobi_drm_pidverify pid = MOBI_DRM_PIDINV := by
  revert h
  simp only [mobi_drm_pidverify]
  split
  · intro h; exact absurd rfl h
  · intro _; rfl

theorem strlenBytes_head (p : List Nat) (h : strlenBytes p = 10) :
    ∃ a t, p = a :: t ∧ a % 256 ≠ 0 := by
  cases p with
  | nil => simp [strlenBytes] at h
  | cons a t =>
    refine ⟨a, t, rfl, ?_⟩
    intro ha
    rw [strlenBytes] at h
    simp [List.takeWhile, ha] at h

/-- C8: set_key input contract: with `encryption_type` 0 set_key succeeds
and changes nothing; with `encryption_type > 1` it fails with
`MOBI_INIT_FAILED` on a NULL PID, with `MOBI_DRM_PIDINV` when the PID
length differs from 10 or its checksum is invalid, and only otherwise runs
v2 recovery and stores the recovered key. -/
theorem C8_setkey_contract (m : MOBIData) (rh : MOBIRecord0Header)
    (hrh : m.rh = some rh) :
    (rh.encryption_type = 0 →
      ∀ pid, mobi_drm_setkey_internal m pid = (MOBI_SUCCESS, m)) ∧
    (rh.encryption_type > 1 →
      mobi_drm_setkey_internal m none = (MOBI_INIT_FAILED, m) ∧
      (∀ p, strlenBytes p ≠ 10 →
        mobi_drm_setkey_internal m (some p) = (MOBI_DRM_PIDINV, m)) ∧
      (∀ p, strlenBytes p = 10 →
        mobi_drm_pidverify ((p.take 10).map (fun b => b % 256)) ≠ MOBI_SUCCESS →
        mobi_drm_setkey_internal m (some p) = (MOBI_DRM_PIDINV, m)) ∧
      (∀ p, strlenBytes p = 10 →
        mobi_drm_pidverify ((p.take 10).map (fun b => b % 256)) = MOBI_SUCCESS →
        ∀ r, mobi_drm_getkey_v2 ((p.take 10).map (fun b => b % 256)) m = r →
        mobi_drm_setkey_internal m (some p) =
          (if r.1 = MOBI_SUCCESS then (MOBI_SUCCESS, { m with drm_key := some r.2 })
           else (r.1, m)))) := by
  constructor
  · intro h0 pid
    simp only [mobi_drm_setkey_internal, hrh]
    rw [if_pos h0]
  · intro h1
    have hne0 : ¬ rh.encryption_type = 0 := by omega
    refine ⟨?_, ?_, ?_, ?_⟩
    · simp only [mobi_drm_setkey_internal, hrh]
      rw [if_neg hne0, if_pos h1]
    · intro p hl
      simp only [mobi_drm_setkey_internal, hrh]
      rw [if_neg hne0, if_pos h1]
      rw [if_pos hl]
    · intro p hl10 hv
      simp only [mobi_drm_setkey_internal, hrh]
      rw [if_neg hne0, if_pos h1]
      rw [if_neg (not_not_intro hl10), if_pos hv]
      rw [pidverify_not_success _ hv]
    · intro p hl10 hv r hr
      obtain ⟨a, t, hp, ha⟩ := strlenBytes_head p hl10
      have hd : ((p.take 10).map (fun b => b % 256)).getD 0 0 ≠ 0 := by
        subst hp; simpa using ha
      have hgetkey : mobi_drm_getkey ((p.take 10).map (fun b => b % 256)) m =
          mobi_drm_getkey_v2 ((p.take 10).map (fun b => b % 256)) m := by
        have hne1 : ¬ rh.encryption_type = 1 := by omega
        simp only [mobi_drm_getkey, hrh]
        rw [if_neg hne1, if_neg hd]
      simp only [mobi_drm_setkey_internal, hrh]
      rw [if_neg hne0, if_pos h1]
      rw [if_neg (not_not_intro hl10), if_neg (not_not_intro hv)]
      unfold mobi_drm_setkey_finish
      rw [hgetkey, hr]
      by_cases hS : r.1 = MOBI_SUCCESS
      · rw [if_neg (not_not_intro hS), if_pos hS, hrh]
      · rw [if_pos hS, if_neg hS]

/-- Witness for C8 at a concrete unencrypted book. -/
theorem C8_setkey_contract_witness :
    mobi_drm_setkey_internal { emptyBook with rh := some ⟨0⟩ } none =
      (MOBI_SUCCESS, { emptyBook with rh := some ⟨0⟩ }) :=
  (C8_setkey_contract { emptyBook with rh := some ⟨0⟩ } ⟨0⟩ rfl).1 rfl none

/-! ## V2 cookie acceptance (C4) -/

theorem v2Loop_keynotfound (pid : List Nat) (l : List MOBIDrm) :
    (mobi_drm_getkey_v2Loop (v2TempKey pid) (mobi_drm_keychecksum (v2TempKey pid))
      (mobi_drm_keychecksum KEYVEC1) l).1 = MOBI_DRM_KEYNOTFOUND ↔
    (∀ d ∈ l, ∀ k, v2DecryptKey pid d = some k →
      mobi_drm_verify d.verification (mobi_pk1_decrypt d.cookie k) = false) := by
  induction l with
  | nil => simp [mobi_drm_getkey_v2Loop]
  | cons d rest ih =>
    rw [List.forall_mem_cons]
    by_cases h1 : d.checksum = mobi_drm_keychecksum (v2TempKey pid)
    · have hdk : v2DecryptKey pid d = some (v2TempKey pid) := by
        simp [v2DecryptKey, h1]
      by_cases hv : mobi_drm_verify d.verification
          (mobi_pk1_decrypt d.cookie (v2TempKey pid)) = true
      · simp only [mobi_drm_getkey_v2Loop, if_pos h1, if_pos hv]
        constructor
        · intro hc; exact absurd hc (by decide)
        · rintro ⟨hPd, -⟩
          have hfd := hPd (v2TempKey pid) hdk
          rw [hv] at hfd
          exact absurd hfd (by decide)
      · have hvf : mobi_drm_verify d.verification
            (mobi_pk1_decrypt d.cookie (v2TempKey pid)) = false :=
          Bool.eq_false_iff.mpr hv
        simp only [mobi_drm_getkey_v2Loop, if_pos h1, if_neg hv]
        rw [ih]
        constructor
        · intro hrest
          refine ⟨fun k hk => ?_, hrest⟩
          rw [hdk, Option.some_inj] at hk
          subst hk
          exact hvf
        · intro h; exact h.2
    · by_cases h2 : d.checksum = mobi_drm_keychecksum KEYVEC1
      · have hdk : v2DecryptKey pid d = some KEYVEC1 := by
          unfold v2DecryptKey
          rw [if_neg h1, if_pos h2]
        by_cases hv : mobi_drm_verify d.verification
            (mobi_pk1_decrypt d.cookie KEYVEC1) = true
        · simp only [mobi_drm_getkey_v2Loop, if_neg h1, if_pos h2, if_pos hv]
          constructor
          · intro hc; exact absurd hc (by decide)
          · rintro ⟨hPd, -⟩
            have hfd := hPd KEYVEC1 hdk
            rw [hv] at hfd
            exact absurd hfd (by decide)
        · have hvf : mobi_drm_verify d.verification
              (mobi_pk1_decrypt d.cookie KEYVEC1) = false :=
            Bool.eq_false_iff.mpr hv
          simp only [mobi_drm_getkey_v2Loop, if_neg h1, if_pos h2, if_neg hv]
          rw [ih]
          constructor
          · intro hrest
            refine ⟨fun k hk => ?_, hrest⟩
            rw [hdk, Option.some_inj] at hk
            subst hk
            exact hvf
          · intro h; exact h.2
      · have hdk : v2DecryptKey pid d = none := by
          unfold v2DecryptKey
          rw [if_neg h1, if_neg h2]
        simp only [mobi_drm_getkey_v2Loop, if_neg h1, if_neg h2]
        rw [ih]
        constructor
        · intro hrest
          refine ⟨fun k hk => ?_, hrest⟩
          rw [hdk] at hk
          exact absurd hk (by simp)
        · intro h; exact h.2

theorem v2Loop_success (pid : List Nat) (l : List MOBIDrm) :
    ∀ key, mobi_drm_getkey_v2Loop (v2TempKey pid)
        (mobi_drm_keychecksum (v2TempKey pid)) (mobi_drm_keychecksum KEYVEC1) l =
        (MOBI_SUCCESS, key) →
      ∃ d ∈ l, ∃ k, v2DecryptKey pid d = some k ∧
        mobi_drm_verify d.verification (mobi_pk1_decrypt d.cookie k) = true ∧
        key = ((mobi_pk1_decrypt d.cookie k).drop 8).take 16 := by
  induction l with
  | nil =>
    intro key h
    simp [mobi_drm_getkey_v2Loop] at h
  | cons d rest ih =>
    intro key h
    by_cases h1 : d.checksum = mobi_drm_keychecksum (v2TempKey pid)
    · have hdk : v2DecryptKey pid d = some (v2TempKey pid) := by
        unfold v2DecryptKey
        rw [if_pos h1]
      by_cases hv : mobi_drm_verify d.verification
          (mobi_pk1_decrypt d.cookie (v2TempKey pid)) = true
      · simp only [mobi_drm_getkey_v2Loop, if_pos h1, if_pos hv] at h
        have hkey := congrArg Prod.snd h
        exact ⟨d, List.mem_cons_self d rest, v2TempKey pid, hdk, hv, hkey.symm⟩
      · simp only [mobi_drm_getkey_v2Loop, if_pos h1, if_neg hv] at h
        obtain ⟨e, he, k, hk, hvk, hkey⟩ := ih key h
        exact ⟨e, List.mem_cons_of_mem d he, k, hk, hvk, hkey⟩
    · by_cases h2 : d.checksum = mobi_drm_keychecksum KEYVEC1
      · have hdk : v2DecryptKey pid d = some KEYVEC1 := by
          unfold v2DecryptKey
          rw [if_neg h1, if_pos h2]
        by_cases hv : mobi_drm_verify d.verification
            (mobi_pk1_decrypt d.cookie KEYVEC1) = true
        · simp only [mobi_drm_getkey_v2Loop, if_neg h1, if_pos h2, if_pos hv] at h
          have hkey := congrArg Prod.snd h
          exact ⟨d, List.mem_cons_self d rest, KEYVEC1, hdk, hv, hkey.symm⟩
        · simp only [mobi_drm_getkey_v2Loop, if_neg h1, if_pos h2, if_neg hv] at h
          obtain ⟨e, he, k, hk, hvk, hkey⟩ := ih key h
          exact ⟨e, List.mem_cons_of_mem d he, k, hk, hvk, hkey⟩
      · simp only [mobi_drm_getkey_v2Loop, if_neg h1, if_neg h2] at h
        obtain ⟨e, he, k, hk, hvk, hkey⟩ := ih key h
        exact ⟨e, List.mem_cons_of_mem d he, k, hk, hvk, hkey⟩

theorem v2Loop_fst (tempkey : List Nat) (tck kck : Nat) (l : List MOBIDrm) :
    (mobi_drm_getkey_v2Loop tempkey tck kck l).1 = MOBI_SUCCESS ∨
    (mobi_drm_getkey_v2Loop tempkey tck kck l).1 = MOBI_DRM_KEYNOTFOUND := by
  induction l with
  | nil => right; rfl
  | cons d rest ih =>
    by_cases h1 : d.checksum = tck
    · by_cases hv : mobi_drm_verify d.verification
          (mobi_pk1_decrypt d.cookie tempkey) = true
      · left; simp only [mobi_drm_getkey_v2Loop, if_pos h1, if_pos hv]
      · simpa only [mobi_drm_getkey_v2Loop, if_pos h1, if_neg hv] using ih
    · by_cases h2 : d.checksum = kck
      · by_cases hv : mobi_drm_verify d.verification
            (mobi_pk1_decrypt d.cookie KEYVEC1) = true
        · left; simp only [mobi_drm_getkey_v2Loop, if_neg h1, if_pos h2, if_pos hv]
        · simpa only [mobi_drm_getkey_v2Loop, if_neg h1, if_pos h2, if_neg hv] using ih
      · simpa only [mobi_drm_getkey_v2Loop, if_neg h1, if_neg h2] using ih

/-- C4: v2 cookie acceptance: a decrypted cookie is accepted iff the
big-endian u32 at bytes 0..4 equals the descriptor verification value and
the low 5 bits of the big-endian u32 at bytes 4..8 are non-zero; the v2
engine returns `MOBI_DRM_KEYNOTFOUND` exactly when no descriptor whose
checksum selects a decryption key has an accepted cookie; on success the
recovered key is exactly bytes 8..24 of the decrypted cookie of an
accepted descriptor, and the engine returns only those two codes. -/
theorem C4_v2_cookie_acceptance (m : MOBIData) (pid : List Nat) :
    (∀ v c, mobi_drm_verify v c = true ↔
      (readU32BE c 0 = v ∧ Nat.land (readU32BE c 4) 0x1f ≠ 0)) ∧
    ((mobi_drm_getkey_v2 pid m).1 = MOBI_DRM_KEYNOTFOUND ↔
      ∀ d ∈ mobi_drm_parse m, ∀ k, v2DecryptKey pid d = some k →
        mobi_drm_verify d.verification (mobi_pk1_decrypt d.cookie k) = false) ∧
    (∀ key, mobi_drm_getkey_v2 pid m = (MOBI_SUCCESS, key) →
      ∃ d ∈ mobi_drm_parse m, ∃ k, v2DecryptKey pid d = some k ∧
        mobi_drm_verify d.verification (mobi_pk1_decrypt d.cookie k) = true ∧
        key = ((mobi_pk1_decrypt d.cookie k).drop 8).take 16) ∧
    ((mobi_drm_getkey_v2 pid m).1 = MOBI_SUCCESS ∨
      (mobi_drm_getkey_v2 pid m).1 = MOBI_DRM_KEYNOTFOUND) := by
  refine ⟨?_, ?_, ?_, ?_⟩
  · intro v c
    simp only [mobi_drm_verify, readU32BE, readByte, decide_eq_true_eq]
  · exact v2Loop_keynotfound pid (mobi_drm_parse m)
  · intro key h
    exact v2Loop_success pid (mobi_drm_parse m) key h
  · exact v2Loop_fst _ _ _ _

/-- Witness for C4 at a concrete book with no DRM table. -/
theorem C4_v2_cookie_acceptance_witness :
    (mobi_drm_getkey_v2 [1, 2, 3, 4, 5, 6, 7, 8, 9, 10] emptyBook).1 =
      MOBI_DRM_KEYNOTFOUND :=
  (C4_v2_cookie_acceptance emptyBook [1, 2, 3, 4, 5, 6, 7, 8, 9, 10]).2.1.mpr
    (fun d hd => by simp [mobi_drm_parse, emptyBook] at hd)
